import Mathlib

/-!
Verification of the attendance-portal barcode scanner.

Shallow embedding of `src/attendance-portal/src/App.jsx` (the Attendance
Store: roster, last-scanned student, status message, `handleScan`) and
`src/attendance-portal/src/BarcodeScanner.jsx` (the Scan Session:
`startCamera`'s per-frame decode callback, `stopCamera`,
`handleImageUpload`).

React `useState` triples are modelled as record fields; each event
handler becomes a pure state transformer.  Asynchronous external
collaborators (the zxing decoder, media tracks, file loading) are
modelled by explicit parameters carrying their outcomes.
-/

/-- A student record as in `studentsData` / `App.jsx`:
`{ id, name, branch, class, attendance }`. -/
structure Student where
  id : String
  name : String
  branch : String
  «class» : String
  attendance : String
deriving DecidableEq, Repr

/-- The Attendance Store state of `App.jsx`: the `students` roster,
the `scannedStudent` display (nullable) and the `scanMessage` status line. -/
structure AppState where
  students : List Student
  scannedStudent : Option Student
  scanMessage : String
deriving DecidableEq, Repr

/-- JavaScript `Array.prototype.findIndex`: index of the first element
satisfying `p`, `none` for the JS `-1`. -/
def findIndex (p : α → Bool) : List α → Option Nat
  | [] => none
  | a :: rest => if p a then some 0 else (findIndex p rest).map (· + 1)

/-- In-place update of the element at an index, as in
`updatedStudents[studentIndex].attendance = 'Present'` (out-of-range
indices leave the list unchanged; `handleScan` only uses in-range ones). -/
def updateAt (f : α → α) : List α → Nat → List α
  | [], _ => []
  | a :: rest, 0 => f a :: rest
  | a :: rest, n + 1 => a :: updateAt f rest n

/-- The single mutation done on a matched student:
`updatedStudents[studentIndex].attendance = 'Present'`. -/
def markPresent (s : Student) : Student := { s with attendance := "Present" }

/-- `handleScan` from `App.jsx` (the spec's `recordScan`):
set the status message to `"Scanned: <decodedText>"`, find the first
student whose `id` equals the decoded text; on a match mark that student
present and display them, otherwise clear the display and overwrite the
status with the not-found message. -/
def handleScan (st : AppState) (decodedText : String) : AppState :=
  let st1 : AppState := { st with scanMessage := "Scanned: " ++ decodedText }
  match findIndex (fun s => s.id == decodedText) st1.students with
  | some studentIndex =>
      let updatedStudents := updateAt markPresent st1.students studentIndex
      { st1 with
          students := updatedStudents
          scannedStudent := updatedStudents[studentIndex]? }
  | none =>
      { st1 with
          scannedStudent := none
          scanMessage := "Student not found for this barcode!" }

/-- A sequence of scans, folding `handleScan` over decoded texts. -/
def scanAll (st : AppState) : List String → AppState
  | [] => st
  | c :: cs => scanAll (handleScan st c) cs

/-! ### Basic lemmas about `findIndex` and `updateAt` -/

theorem findIndex_eq_none_of_all {p : α → Bool} {l : List α}
    (h : ∀ a ∈ l, p a = false) : findIndex p l = none := by
  induction l with
  | nil => rfl
  | cons a rest ih =>
      simp only [findIndex]
      rw [if_neg (by simp [h a (List.mem_cons_self a rest)]),
        ih fun b hb => h b (List.mem_cons_of_mem a hb)]
      rfl

theorem findIndex_some_get? {p : α → Bool} {l : List α} {i : Nat}
    (h : findIndex p l = some i) : ∃ a, l[i]? = some a ∧ p a = true := by
  induction l generalizing i with
  | nil => simp [findIndex] at h
  | cons a rest ih =>
      by_cases hp : p a = true
      · simp [findIndex, hp] at h
        subst h
        exact ⟨a, by simp, hp⟩
      · simp [findIndex, hp] at h
        obtain ⟨j, hj, rfl⟩ := h
        obtain ⟨b, hb, hpb⟩ := ih hj
        exact ⟨b, by simpa using hb, hpb⟩

theorem findIndex_some_min {p : α → Bool} {l : List α} {i : Nat}
    (h : findIndex p l = some i) :
    ∀ j, j < i → ∀ b, l[j]? = some b → p b = false := by
  induction l generalizing i with
  | nil => simp [findIndex] at h
  | cons a rest ih =>
      by_cases hp : p a = true
      · simp [findIndex, hp] at h
        subst h
        intro j hj
        omega
      · simp [findIndex, hp] at h
        obtain ⟨k, hk, rfl⟩ := h
        intro j hj b hb
        cases j with
        | zero =>
            simp at hb
            subst hb
            simpa using hp
        | succ j =>
            exact ih hk j (by omega) b (by simpa using hb)

theorem findIndex_of_get?_nodup {l : List Student} {i : Nat} {S : Student}
    (hget : l[i]? = some S) (hnodup : (l.map Student.id).Nodup) :
    findIndex (fun s => s.id == S.id) l = some i := by
  induction l generalizing i with
  | nil => simp at hget
  | cons a rest ih =>
      cases i with
      | zero =>
          simp at hget
          subst hget
          simp [findIndex]
      | succ i =>
          simp at hget
          have hmem : S ∈ rest := List.getElem?_mem hget
          have hne : a.id ≠ S.id := by
            simp only [List.map_cons, List.nodup_cons] at hnodup
            intro hid
            exact hnodup.1 (hid ▸ List.mem_map_of_mem Student.id hmem)
          have : findIndex (fun s => s.id == S.id) rest = some i :=
            ih hget (by
              simp only [List.map_cons, List.nodup_cons] at hnodup
              exact hnodup.2)
          simp [findIndex, hne, this]

theorem length_updateAt (f : α → α) (l : List α) (n : Nat) :
    (updateAt f l n).length = l.length := by
  induction l generalizing n with
  | nil => rfl
  | cons a rest ih =>
      cases n with
      | zero => rfl
      | succ n => simp [updateAt, ih]

theorem get?_updateAt_self {f : α → α} {l : List α} {n : Nat} {a : α}
    (h : l[n]? = some a) : (updateAt f l n)[n]? = some (f a) := by
  induction l generalizing n with
  | nil => simp at h
  | cons x rest ih =>
      cases n with
      | zero =>
          simp at h
          subst h
          simp [updateAt]
      | succ n =>
          simp at h
          simpa [updateAt] using ih h

theorem get?_updateAt_ne {f : α → α} {l : List α} {n m : Nat}
    (h : m ≠ n) : (updateAt f l n)[m]? = l[m]? := by
  induction l generalizing n m with
  | nil => rfl
  | cons x rest ih =>
      cases n with
      | zero =>
          cases m with
          | zero => exact absurd rfl h
          | succ m => rfl
      | succ n =>
          cases m with
          | zero => simp [updateAt]
          | succ m => simpa [updateAt] using ih (by omega)

theorem updateAt_eq_of_fixed {f : α → α} {l : List α} {n : Nat} {a : α}
    (h : l[n]? = some a) (hfix : f a = a) : updateAt f l n = l := by
  induction l generalizing n with
  | nil => rfl
  | cons x rest ih =>
      cases n with
      | zero =>
          simp at h
          subst h
          simp [updateAt, hfix]
      | succ n =>
          simp at h
          simp [updateAt, ih h]

theorem findIndex_updateAt {p : α → Bool} {f : α → α}
    (hpf : ∀ a, p (f a) = p a) (l : List α) (n : Nat) :
    findIndex p (updateAt f l n) = findIndex p l := by
  induction l generalizing n with
  | nil => rfl
  | cons x rest ih =>
      cases n with
      | zero => simp [updateAt, findIndex, hpf]
      | succ n => simp [updateAt, findIndex, ih]

/-! ### Scan Session model (`BarcodeScanner.jsx`)

`stopCamera`, the per-frame decode callback installed by `startCamera`,
and `handleImageUpload`.  Media tracks, the decoder instance and the
uploaded file are external objects; they are modelled explicitly:
a `MediaTrack` records whether `track.stop()` has been called on it,
the decoder is reduced to whether a continuous decode session is
attached, and an `ImageFile` carries the outcome the external
image-load / zxing decode would produce for it. -/

/-- A media track of the camera stream; `stopped` records whether
`track.stop()` has been called. -/
structure MediaTrack where
  stopped : Bool
deriving DecidableEq, Repr

/-- `srcObject.getTracks().forEach(track => track.stop())`. -/
def stopTracks (tracks : List MediaTrack) : List MediaTrack :=
  tracks.map fun t => { t with stopped := true }

/-- The Scan Session state of `BarcodeScanner.jsx`:
`srcObject` is the media stream attached to the video element (its track
list), `detachedTracks` accumulates tracks of streams that have been
detached from the video element (so that their `stopped` flag stays
observable), `decoderScanning` says whether the `codeReader` has a
continuous decode session attached, and the rest are the `useState`
fields `isScanning`, `error`, `isCameraActive`, `imageScanMessage`. -/
structure ScannerState where
  srcObject : Option (List MediaTrack)
  detachedTracks : List MediaTrack
  decoderScanning : Bool
  isScanning : Bool
  error : Option String
  isCameraActive : Bool
  imageScanMessage : String
deriving DecidableEq, Repr

/-- `stopCamera` from `BarcodeScanner.jsx`: if a stream is attached,
stop every one of its tracks and clear `srcObject`; then
`codeReader.current.reset()`, `setIsScanning(false)`,
`setIsCameraActive(false)`, `setError(null)`, `setImageScanMessage("")`. -/
def stopCamera (st : ScannerState) : ScannerState :=
  let st1 :=
    match st.srcObject with
    | some tracks =>
        { st with
            detachedTracks := st.detachedTracks ++ stopTracks tracks
            srcObject := none }
    | none => st
  { st1 with
      decoderScanning := false
      isScanning := false
      isCameraActive := false
      error := none
      imageScanMessage := "" }

/-- The combined system: the Scan Session child plus the Attendance
Store parent it notifies through the `onDetected` prop (`handleScan`). -/
structure SystemState where
  scanner : ScannerState
  app : AppState
deriving DecidableEq, Repr

/-- `p` is a prefix of the character list. -/
def charsStartWith : List Char → List Char → Bool
  | [], _ => true
  | _ :: _, [] => false
  | p :: ps, c :: cs => p == c && charsStartWith ps cs

/-- `needle` occurs as a contiguous run inside `hay`
(JavaScript `String.prototype.includes` on the underlying characters). -/
def charsContain (needle : List Char) : List Char → Bool
  | [] => needle.isEmpty
  | c :: cs => charsStartWith needle (c :: cs) || charsContain needle cs

/-- `err.toString().includes('NotFoundException')` from the
`decodeFromVideoDevice` callback. -/
def includesNotFoundException (e : String) : Bool :=
  charsContain "NotFoundException".data e.data

/-- The `(result, err)` callback `startCamera` passes to
`codeReader.current.decodeFromVideoDevice`: a decode result is forwarded
to `onDetected` (the Attendance Store's `handleScan`); an error whose
string form contains `NotFoundException` is ignored; any other error
sets the generic scanning-error message.  Nothing stops the session. -/
def decodeCallback (sys : SystemState) (result : Option String)
    (err : Option String) : SystemState :=
  let sys1 :=
    match result with
    | some text => { sys with app := handleScan sys.app text }
    | none => sys
  match err with
  | some e =>
      if includesNotFoundException e then sys1
      else
        { sys1 with
            scanner :=
              { sys1.scanner with
                  error :=
                    some "Error during scanning. Make sure the barcode is clear." } }
  | none => sys1

/-- An uploaded image file: whether the hidden `<img>` element can load
it, and the text the external zxing `decodeFromImage` would yield for it
(`none` when no barcode is found or decoding throws). -/
structure ImageFile where
  loads : Bool
  decodeResult : Option String
deriving DecidableEq, Repr

/-- `handleImageUpload` from `BarcodeScanner.jsx`, with
`event.target.files` as the `files` argument and the file-read /
image-load / decode outcomes taken from the `ImageFile`:
`stopCamera()` first, then `setImageScanMessage("Processing image...")`,
`setError(null)`; with no file selected only the message changes; with a
file, on image load the decoder is reset and recreated and a single
`decodeFromImage` either feeds `onDetected` and reports success, or
reports the no-barcode message and sets the image-scan error; a file the
image element cannot load reports the loading-error messages. -/
def handleImageUpload (sys : SystemState) (files : List ImageFile) :
    SystemState :=
  let sc0 := stopCamera sys.scanner
  let sc1 := { sc0 with imageScanMessage := "Processing image...", error := none }
  match files.head? with
  | none =>
      { scanner := { sc1 with imageScanMessage := "No file selected." }
        app := sys.app }
  | some file =>
      if file.loads then
        let sc2 := { sc1 with decoderScanning := false }
        match file.decodeResult with
        | some text =>
            { scanner :=
                { sc2 with
                    imageScanMessage := "Barcode scanned from image successfully!" }
              app := handleScan sys.app text }
        | none =>
            { scanner :=
                { sc2 with
                    imageScanMessage := "No barcode found in image or error processing."
                    error :=
                      some "Could not scan barcode from image. Try another image or format." }
              app := sys.app }
      else
        { scanner :=
            { sc1 with
                imageScanMessage := "Error loading image."
                error := some "Could not load image file." }
          app := sys.app }

theorem get?_updateAt_none {f : α → α} {l : List α} {n : Nat}
    (h : l[n]? = none) : (updateAt f l n)[n]? = none := by
  induction l generalizing n with
  | nil => rfl
  | cons x rest ih =>
      cases n with
      | zero => simp at h
      | succ n =>
          simp only [List.getElem?_cons_succ] at h
          simpa [updateAt] using ih h

theorem handleScan_step_attendance (st : AppState) (c : String) (i : Nat)
    {S' : Student} (h : (handleScan st c).students[i]? = some S') :
    ∃ S, st.students[i]? = some S ∧ (S' = S ∨ S' = markPresent S) := by
  cases hfind : findIndex (fun s => s.id == c) st.students with
  | none =>
      refine ⟨S', ?_, Or.inl rfl⟩
      simpa [handleScan, hfind] using h
  | some j =>
      have hst : (handleScan st c).students = updateAt markPresent st.students j := by
        simp [handleScan, hfind]
      rw [hst] at h
      by_cases hij : i = j
      · subst hij
        cases hg : st.students[i]? with
        | none => rw [get?_updateAt_none hg] at h; exact absurd h (by simp)
        | some a =>
            rw [get?_updateAt_self hg] at h
            have hS' : markPresent a = S' := by simpa using h
            exact ⟨a, rfl, Or.inr hS'.symm⟩
      · rw [get?_updateAt_ne hij] at h
        exact ⟨S', h, Or.inl rfl⟩

/-- C1: for a student `S` of the roster (with roster ids unique, as the
spec's data model assumes), `handleScan` on `S.id` marks exactly `S`'s
roster entry `"Present"`, displays the updated `S` as the last-scanned
student, and leaves the status message at `"Scanned: <S.id>"`. -/
theorem recordScan_found_spec (st : AppState) (i : Nat) (S : Student)
    (hget : st.students[i]? = some S)
    (hnodup : (st.students.map Student.id).Nodup) :
    (handleScan st S.id).students = updateAt markPresent st.students i ∧
    (handleScan st S.id).students[i]? = some { S with attendance := "Present" } ∧
    (handleScan st S.id).scannedStudent = some { S with attendance := "Present" } ∧
    (handleScan st S.id).scanMessage = "Scanned: " ++ S.id := by
  have hfind := findIndex_of_get?_nodup hget hnodup
  have hupd : (updateAt markPresent st.students i)[i]? = some (markPresent S) :=
    get?_updateAt_self hget
  refine ⟨by simp [handleScan, hfind], ?_, ?_, by simp [handleScan, hfind]⟩
  · have : (handleScan st S.id).students = updateAt markPresent st.students i := by
      simp [handleScan, hfind]
    rw [this, hupd]
    rfl
  · simp [handleScan, hfind, hupd]
    rfl

/-- Witness for C1 on a concrete two-student roster. -/
def stu1 : Student :=
  { id := "S1", name := "Alice", branch := "CSE", «class» := "10A"
    attendance := "Absent" }

def stu2 : Student :=
  { id := "S2", name := "Bob", branch := "ECE", «class» := "10B"
    attendance := "Absent" }

def app0 : AppState :=
  { students := [stu1, stu2], scannedStudent := none
    scanMessage := "Ready to scan..." }

theorem recordScan_found_spec_witness :
    (handleScan app0 stu1.id).students = updateAt markPresent app0.students 0 ∧
    (handleScan app0 stu1.id).students[0]? =
      some { stu1 with attendance := "Present" } ∧
    (handleScan app0 stu1.id).scannedStudent =
      some { stu1 with attendance := "Present" } ∧
    (handleScan app0 stu1.id).scanMessage = "Scanned: " ++ stu1.id :=
  recordScan_found_spec app0 0 stu1 (by decide) (by decide)

/-- C2: a decoded text matching no roster id leaves the roster
unchanged, clears the last-scanned display and sets the not-found
status message. -/
theorem recordScan_notFound_spec (st : AppState) (code : String)
    (h : ∀ s ∈ st.students, s.id ≠ code) :
    (handleScan st code).students = st.students ∧
    (handleScan st code).scannedStudent = none ∧
    (handleScan st code).scanMessage = "Student not found for this barcode!" := by
  have hfind : findIndex (fun s => s.id == code) st.students = none :=
    findIndex_eq_none_of_all fun s hs => by simpa using h s hs
  simp [handleScan, hfind]

theorem recordScan_notFound_spec_witness :
    (handleScan app0 "UNKNOWN").students = app0.students ∧
    (handleScan app0 "UNKNOWN").scannedStudent = none ∧
    (handleScan app0 "UNKNOWN").scanMessage =
      "Student not found for this barcode!" :=
  recordScan_notFound_spec app0 "UNKNOWN" (by decide)

theorem handleScan_idem (st : AppState) (c : String) :
    handleScan (handleScan st c) c = handleScan st c := by
  cases hfind : findIndex (fun s => s.id == c) st.students with
  | none => simp [handleScan, hfind]
  | some i =>
      obtain ⟨S, hget, hp⟩ := findIndex_some_get? hfind
      have hpres : ∀ a : Student, (markPresent a).id = a.id := fun a => rfl
      have hfind2 :
          findIndex (fun s => s.id == c) (updateAt markPresent st.students i) =
            some i := by
        rw [findIndex_updateAt (fun a => by simp [markPresent]) st.students i,
          hfind]
      have hupd : (updateAt markPresent st.students i)[i]? = some (markPresent S) :=
        get?_updateAt_self hget
      have hfix :
          updateAt markPresent (updateAt markPresent st.students i) i =
            updateAt markPresent st.students i :=
        updateAt_eq_of_fixed hupd rfl
      simp [handleScan, hfind, hfind2, hfix]

/-- C3: scanning a roster student's id twice in a row leaves exactly the
state a single scan produces: the roster, the last-scanned display and
the status message are all unchanged by the second scan. -/
theorem recordScan_idempotent (st : AppState) (S : Student)
    (_ : S ∈ st.students) :
    handleScan (handleScan st S.id) S.id = handleScan st S.id :=
  handleScan_idem st S.id

theorem recordScan_idempotent_witness :
    handleScan (handleScan app0 stu1.id) stu1.id = handleScan app0 stu1.id :=
  recordScan_idempotent app0 stu1 (by decide)

/-- C4: over any sequence of scans, each roster slot either keeps its
initial record or holds that record with attendance `"Present"`:
`"Present"` is the only attendance value ever written, and a student
marked `"Present"` never reverts. -/
theorem scanAll_attendance_monotone (st : AppState) (codes : List String)
    (i : Nat) (S' : Student)
    (h : (scanAll st codes).students[i]? = some S') :
    ∃ S, st.students[i]? = some S ∧
      (S' = S ∨ S' = { S with attendance := "Present" }) ∧
      (S.attendance = "Present" → S'.attendance = "Present") := by
  induction codes generalizing st with
  | nil =>
      exact ⟨S', by simpa [scanAll] using h, Or.inl rfl, fun hp => hp⟩
  | cons c cs ih =>
      have h1 : (scanAll (handleScan st c) cs).students[i]? = some S' := by
        simpa [scanAll] using h
      obtain ⟨T, hT, hTd, _⟩ := ih (handleScan st c) h1
      obtain ⟨S, hS, hSd⟩ := handleScan_step_attendance st c i hT
      have hdisj : S' = S ∨ S' = markPresent S := by
        rcases hTd with rfl | rfl <;> rcases hSd with rfl | rfl
        · exact Or.inl rfl
        · exact Or.inr rfl
        · exact Or.inr rfl
        · exact Or.inr rfl
      refine ⟨S, hS, ?_, ?_⟩
      · simpa [markPresent] using hdisj
      · intro hp
        rcases hdisj with rfl | rfl
        · exact hp
        · rfl

theorem scanAll_attendance_monotone_witness :
    ∃ S, app0.students[0]? = some S ∧
      (markPresent stu1 = S ∨ markPresent stu1 = { S with attendance := "Present" }) ∧
      (S.attendance = "Present" → (markPresent stu1).attendance = "Present") :=
  scanAll_attendance_monotone app0 ["S1"] 0 (markPresent stu1) (by decide)

/-- C5: any single scan preserves the roster's length and every
student's `id`, `name`, `branch` and `class`; the slot the match landed
on (if any) changes only by `attendance := "Present"`, every other slot
is untouched. -/
theorem recordScan_frame (st : AppState) (code : String) (i : Nat) (S : Student)
    (h : st.students[i]? = some S) :
    (handleScan st code).students.length = st.students.length ∧
    ∃ S', (handleScan st code).students[i]? = some S' ∧
      S'.id = S.id ∧ S'.name = S.name ∧ S'.branch = S.branch ∧
      S'.«class» = S.«class» ∧
      (findIndex (fun s => s.id == code) st.students = some i →
        S' = { S with attendance := "Present" }) ∧
      (findIndex (fun s => s.id == code) st.students ≠ some i → S' = S) := by
  cases hfind : findIndex (fun s => s.id == code) st.students with
  | none =>
      have hst : (handleScan st code).students = st.students := by
        simp [handleScan, hfind]
      refine ⟨by rw [hst], S, by rw [hst, h], rfl, rfl, rfl, rfl,
        fun hc => absurd hc (by simp), fun _ => rfl⟩
  | some j =>
      have hst : (handleScan st code).students =
          updateAt markPresent st.students j := by
        simp [handleScan, hfind]
      have hlen : (handleScan st code).students.length = st.students.length := by
        rw [hst, length_updateAt]
      by_cases hij : i = j
      · subst hij
        refine ⟨hlen, markPresent S, ?_, rfl, rfl, rfl, rfl,
          fun _ => rfl, fun hc => absurd rfl hc⟩
        rw [hst, get?_updateAt_self h]
      · refine ⟨hlen, S, ?_, rfl, rfl, rfl, rfl, ?_, fun _ => rfl⟩
        · rw [hst, get?_updateAt_ne hij]
          exact h
        · intro hc
          exact absurd (Option.some.inj hc).symm hij

theorem recordScan_frame_witness :
    (handleScan app0 "S1").students.length = app0.students.length ∧
    ∃ S', (handleScan app0 "S1").students[1]? = some S' ∧
      S'.id = stu2.id ∧ S'.name = stu2.name ∧ S'.branch = stu2.branch ∧
      S'.«class» = stu2.«class» ∧
      (findIndex (fun s => s.id == "S1") app0.students = some 1 →
        S' = { stu2 with attendance := "Present" }) ∧
      (findIndex (fun s => s.id == "S1") app0.students ≠ some 1 → S' = stu2) :=
  recordScan_frame app0 "S1" 1 stu2 (by decide)

/-- C6: a successful match is the first roster entry (in order) whose
`id` is equal — as strings, hence case-sensitively — to the decoded
text: every earlier entry's id differs, only that entry's attendance is
set to `"Present"` (even when later entries share the id), and that
entry becomes the last-scanned student. -/
theorem recordScan_matches_first (st : AppState) (code : String) (i : Nat)
    (h : findIndex (fun s => s.id == code) st.students = some i) :
    ∃ S, st.students[i]? = some S ∧ S.id = code ∧
      (∀ j T, j < i → st.students[j]? = some T → T.id ≠ code) ∧
      (handleScan st code).students = updateAt markPresent st.students i ∧
      (handleScan st code).scannedStudent =
        some { S with attendance := "Present" } := by
  obtain ⟨S, hget, hp⟩ := findIndex_some_get? h
  have hid : S.id = code := by simpa using hp
  refine ⟨S, hget, hid, ?_, by simp [handleScan, h], ?_⟩
  · intro j T hj hT
    have := findIndex_some_min h j hj T hT
    simpa using this
  · have hss : (handleScan st code).scannedStudent =
        (updateAt markPresent st.students i)[i]? := by
      simp [handleScan, h]
    rw [hss, get?_updateAt_self hget]
    rfl

/-- A roster with a duplicated id, for the C6 witness. -/
def stu1b : Student :=
  { id := "S1", name := "Charlie", branch := "ME", «class» := "10C"
    attendance := "Absent" }

def appDup : AppState :=
  { students := [stu1, stu1b], scannedStudent := none
    scanMessage := "Ready to scan..." }

theorem recordScan_matches_first_witness :
    ∃ S, appDup.students[0]? = some S ∧ S.id = "S1" ∧
      (∀ j T, j < 0 → appDup.students[j]? = some T → T.id ≠ "S1") ∧
      (handleScan appDup "S1").students = updateAt markPresent appDup.students 0 ∧
      (handleScan appDup "S1").scannedStudent =
        some { S with attendance := "Present" } :=
  recordScan_matches_first appDup "S1" 0 (by decide)

/-! ### Scan Session claim theorems -/

theorem stopCamera_stopCamera (st : ScannerState) :
    stopCamera (stopCamera st) = stopCamera st := by
  cases hsrc : st.srcObject <;> simp [stopCamera, hsrc]

theorem stopCamera_isCameraActive (st : ScannerState) :
    (stopCamera st).isCameraActive = false := rfl

theorem stopCamera_isScanning (st : ScannerState) :
    (stopCamera st).isScanning = false := rfl

theorem stopCamera_decoderScanning (st : ScannerState) :
    (stopCamera st).decoderScanning = false := rfl

theorem stopCamera_error (st : ScannerState) : (stopCamera st).error = none := rfl

theorem stopCamera_imageScanMessage (st : ScannerState) :
    (stopCamera st).imageScanMessage = "" := rfl

theorem stopCamera_srcObject (st : ScannerState) :
    (stopCamera st).srcObject = none := by
  cases hsrc : st.srcObject <;> simp [stopCamera, hsrc]

theorem mem_stopTracks_stopped {tracks : List MediaTrack} {t : MediaTrack}
    (h : t ∈ stopTracks tracks) : t.stopped = true := by
  simp only [stopTracks, List.mem_map] at h
  obtain ⟨u, _, rfl⟩ := h
  rfl

theorem handleImageUpload_detachedTracks (sys : SystemState)
    (files : List ImageFile) :
    (handleImageUpload sys files).scanner.detachedTracks =
      (stopCamera sys.scanner).detachedTracks := by
  cases files with
  | nil => rfl
  | cons file rest =>
      by_cases hl : file.loads = true
      · cases hd : file.decodeResult <;>
          simp [handleImageUpload, hl, hd]
      · simp [handleImageUpload, hl]

/-- C8: `stopCamera` returns the session to Idle from any state: every
track of the attached stream is stopped and detached, the decoder's
continuous session is discarded, error and image-scan message are
cleared, and `isScanning` / `isCameraActive` end up false. -/
theorem stopCamera_spec (st : ScannerState) :
    (stopCamera st).srcObject = none ∧
    (stopCamera st).decoderScanning = false ∧
    (stopCamera st).isScanning = false ∧
    (stopCamera st).isCameraActive = false ∧
    (stopCamera st).error = none ∧
    (stopCamera st).imageScanMessage = "" ∧
    ∀ tracks, st.srcObject = some tracks →
      (stopCamera st).detachedTracks = st.detachedTracks ++ stopTracks tracks ∧
      ∀ t ∈ stopTracks tracks, t.stopped = true := by
  refine ⟨?_, rfl, rfl, rfl, rfl, rfl, ?_⟩
  · cases hsrc : st.srcObject <;> simp [stopCamera, hsrc]
  · intro tracks htr
    refine ⟨by simp [stopCamera, htr], fun t ht => mem_stopTracks_stopped ht⟩

/-- A camera-active scanner state, for witnesses. -/
def trkA : MediaTrack := { stopped := false }

def scanCam : ScannerState :=
  { srcObject := some [trkA], detachedTracks := [], decoderScanning := true
    isScanning := true, error := none, isCameraActive := true
    imageScanMessage := "" }

theorem stopCamera_spec_witness :
    (stopCamera scanCam).detachedTracks =
      scanCam.detachedTracks ++ stopTracks [trkA] ∧
    ∀ t ∈ stopTracks [trkA], t.stopped = true :=
  (stopCamera_spec scanCam).2.2.2.2.2.2 [trkA] rfl

/-- C7: `handleImageUpload` tears the camera session down before any
image processing: whatever the uploaded file list and whatever branch
the upload takes, afterwards the camera is inactive, no stream is
attached, the decode loop is gone (so at most the image source was
active), the upload behaves exactly as if the camera had already been
stopped, and every track of a previously attached stream has been
stopped and detached. -/
theorem handleImageUpload_mutual_exclusion (sys : SystemState)
    (files : List ImageFile) :
    (handleImageUpload sys files).scanner.isCameraActive = false ∧
    (handleImageUpload sys files).scanner.isScanning = false ∧
    (handleImageUpload sys files).scanner.srcObject = none ∧
    (handleImageUpload sys files).scanner.decoderScanning = false ∧
    handleImageUpload sys files =
      handleImageUpload { sys with scanner := stopCamera sys.scanner } files ∧
    ∀ tracks, sys.scanner.srcObject = some tracks →
      ∀ t ∈ stopTracks tracks,
        t ∈ (handleImageUpload sys files).scanner.detachedTracks ∧
        t.stopped = true := by
  have hbase :
      (handleImageUpload sys files).scanner.isCameraActive = false ∧
      (handleImageUpload sys files).scanner.isScanning = false ∧
      (handleImageUpload sys files).scanner.srcObject = none ∧
      (handleImageUpload sys files).scanner.decoderScanning = false := by
    cases files with
    | nil =>
        exact ⟨rfl, rfl, stopCamera_srcObject sys.scanner, rfl⟩
    | cons file rest =>
        by_cases hl : file.loads = true
        · cases hd : file.decodeResult <;>
            simp [handleImageUpload, hl, hd, stopCamera_isCameraActive,
              stopCamera_isScanning, stopCamera_srcObject,
              stopCamera_decoderScanning]
        · simp [handleImageUpload, hl, stopCamera_isCameraActive,
            stopCamera_isScanning, stopCamera_srcObject,
            stopCamera_decoderScanning]
  refine ⟨hbase.1, hbase.2.1, hbase.2.2.1, hbase.2.2.2, ?_, ?_⟩
  · simp only [handleImageUpload, stopCamera_stopCamera]
  · intro tracks htr t ht
    refine ⟨?_, mem_stopTracks_stopped ht⟩
    rw [handleImageUpload_detachedTracks]
    simp [stopCamera, htr, ht]

def sysCam : SystemState := { scanner := scanCam, app := app0 }

theorem handleImageUpload_mutual_exclusion_witness :
    ({ stopped := true } : MediaTrack) ∈
      (handleImageUpload sysCam []).scanner.detachedTracks ∧
    ({ stopped := true } : MediaTrack).stopped = true :=
  (handleImageUpload_mutual_exclusion sysCam []).2.2.2.2.2 [trkA] rfl
    { stopped := true } (by decide)

/-- C9: in the per-frame callback of a camera session, an error whose
string form contains `NotFoundException` changes nothing beyond what the
error-free callback does (in particular no error message is set), while
any other error sets the generic scanning-error message yet leaves the
scanning flags, the stream, the decode loop and the attendance side
exactly as they were — the session is not stopped. -/
theorem decodeCallback_error_spec (sys : SystemState) (result : Option String)
    (e : String) :
    (includesNotFoundException e = true →
      decodeCallback sys result (some e) = decodeCallback sys result none) ∧
    (includesNotFoundException e = false →
      (decodeCallback sys result (some e)).scanner.error =
        some "Error during scanning. Make sure the barcode is clear." ∧
      (decodeCallback sys result (some e)).scanner.isScanning =
        sys.scanner.isScanning ∧
      (decodeCallback sys result (some e)).scanner.isCameraActive =
        sys.scanner.isCameraActive ∧
      (decodeCallback sys result (some e)).scanner.decoderScanning =
        sys.scanner.decoderScanning ∧
      (decodeCallback sys result (some e)).scanner.srcObject =
        sys.scanner.srcObject ∧
      (decodeCallback sys result (some e)).app =
        (decodeCallback sys result none).app) := by
  constructor
  · intro h
    cases result <;> simp [decodeCallback, h]
  · intro h
    cases result <;> simp [decodeCallback, h]

theorem decodeCallback_error_spec_witness :
    decodeCallback sysCam none (some "zxing NotFoundException hit") =
      decodeCallback sysCam none none :=
  (decodeCallback_error_spec sysCam none "zxing NotFoundException hit").1
    (by decide)

/-- C10: an upload event with an empty file list stops any active
camera session, reports `"No file selected."`, sets no error, attempts
no decode and never reaches the Attendance Store: the whole resulting
state is the stopped-camera state with only the image-scan message
changed, and the roster and last-scanned student are untouched. -/
theorem handleImageUpload_noFile_spec (sys : SystemState) :
    (handleImageUpload sys []).app = sys.app ∧
    (handleImageUpload sys []).scanner.imageScanMessage = "No file selected." ∧
    (handleImageUpload sys []).scanner.error = none ∧
    handleImageUpload sys [] =
      { scanner :=
          { stopCamera sys.scanner with imageScanMessage := "No file selected." }
        app := sys.app } := by
  refine ⟨rfl, rfl, rfl, rfl⟩
